import Mathlib

/-!
Verification of the ccproxy discovery-protocol codecs.

This file gives a shallow embedding of the pure codec layer of the ccproxy
reverse proxy: the Bedrock unconnected-ping identity codec
(`src/network/bedrock.rs`) and the full-stat query record constructor
(`src/config.rs`, `ProxyQueryConfig::from_kv_and_players`), together with
models of the Rust standard-library string-to-integer conversions they call.
Theorems about the embedded definitions settle the specified properties of
the codecs.

Modelling conventions:
* Rust `String` is Lean `String`; `str::split(";")` (a one-character pattern)
  is `splitOnChar ';'` on the underlying character list, and `Vec::join(";")`
  is `intercalateChar ';'`.
* `u64`/`u16` are `Nat` with an explicit upper bound enforced at parse time;
  `i32` is `Int` with the explicit `2 ^ 31` bounds enforced at parse time.
* `<uN as FromStr>::from_str` / `<i32 as FromStr>::from_str` accept an
  optional sign (`+` for unsigned, `+`/`-` for signed) followed by one or
  more ASCII decimal digits, and fail on overflow; `parseUnsigned` and
  `parseI32` model exactly that.
* Fallible Rust functions returning `CCProxyResult<T>` become
  `Except CCProxyError T`; each `?` / `ok_or` / `map_err` step becomes one
  `match` layer, in the source's evaluation order.
-/

namespace CCProxy

instance instDecEqExcept {ε α : Type} [DecidableEq ε] [DecidableEq α] :
    DecidableEq (Except ε α)
  | .ok a, .ok b =>
    if h : a = b then .isTrue (by rw [h]) else .isFalse (by simp [h])
  | .ok _, .error _ => .isFalse (by simp)
  | .error _, .ok _ => .isFalse (by simp)
  | .error a, .error b =>
    if h : a = b then .isTrue (by rw [h]) else .isFalse (by simp [h])

/-- Protocol-level error variants of `CCProxyError` (src/error.rs); the
transport/startup variants carry library payloads and never arise in the
codec layer, so they are not modelled. -/
inductive CCProxyError where
  | UpstreamMotdInvalid
  | MotdInvalid
  | QueryInvalid
  | QueryTimeout
deriving DecidableEq, Repr

/-- Value of an ASCII decimal digit character, `none` on any other
character (the per-character step of Rust's `from_str` digit loop). -/
def charDigit (c : Char) : Option Nat :=
  if ('0' : Char) ≤ c ∧ c ≤ ('9' : Char) then some (c.toNat - ('0' : Char).toNat) else none

/-- Accumulating digit loop of Rust's integer `from_str`: consume decimal
digits left to right, failing on the first non-digit character. -/
def parseDigitsAux (acc : Nat) : List Char → Option Nat
  | [] => some acc
  | c :: cs =>
    match charDigit c with
    | some d => parseDigitsAux (acc * 10 + d) cs
    | none => none

/-- Parse a non-empty all-digit character list to its decimal value;
an empty digit sequence is a parse error in Rust's `from_str`. -/
def parseNatChars (l : List Char) : Option Nat :=
  if l = [] then none else parseDigitsAux 0 l

/-- Model of `<uN as FromStr>::from_str` for an unsigned type whose values
are exactly the naturals `< lim`: optional leading `+`, then a non-empty
digit run; overflow (value `≥ lim`) is a parse error. -/
def parseUnsigned (lim : Nat) (s : String) : Option Nat :=
  match s.data with
  | [] => none
  | c :: rest =>
    match parseNatChars (if c = '+' then rest else c :: rest) with
    | some n => if n < lim then some n else none
    | none => none

/-- Model of `<u64 as FromStr>::from_str` (guid field). -/
def parseU64 (s : String) : Option Nat :=
  parseUnsigned (2 ^ 64) s

/-- Model of `<u16 as FromStr>::from_str` (port fields). -/
def parseU16 (s : String) : Option Nat :=
  parseUnsigned (2 ^ 16) s

/-- Model of `<i32 as FromStr>::from_str`: optional `+`/`-` sign, then a
non-empty digit run; values outside `[-2 ^ 31, 2 ^ 31 - 1]` are a parse
error. -/
def parseI32 (s : String) : Option Int :=
  match s.data with
  | [] => none
  | c :: rest =>
    if c = '-' then
      match parseNatChars rest with
      | some n => if n ≤ 2 ^ 31 then some (-(n : Int)) else none
      | none => none
    else
      match parseNatChars (if c = '+' then rest else c :: rest) with
      | some n => if n < 2 ^ 31 then some ((n : Int)) else none
      | none => none

/-- Base-10 digits of `n`, least significant first, computed with explicit
fuel so that the kernel can evaluate it (`natDigitsAux n n` agrees with
Mathlib's `Nat.digits 10 n`, see `natDigits_eq_digits`). -/
def natDigitsAux : Nat → Nat → List Nat
  | 0, _ => []
  | fuel + 1, n => if n = 0 then [] else n % 10 :: natDigitsAux fuel (n / 10)

/-- Base-10 digits of `n`, least significant first. -/
def natDigits (n : Nat) : List Nat :=
  natDigitsAux n n

/-- Canonical decimal digit characters of a natural number, most significant
first (the output of Rust's `Display for uN` / `u64::to_string`). -/
def natReprChars (n : Nat) : List Char :=
  if n = 0 then ['0'] else ((natDigits n).map Nat.digitChar).reverse

/-- Model of `uN::to_string` (canonical decimal). -/
def natRepr (n : Nat) : String :=
  String.mk (natReprChars n)

/-- Model of `i32::to_string` (canonical decimal, `-` sign for negatives). -/
def intRepr (i : Int) : String :=
  if i < 0 then String.mk ('-' :: natReprChars i.natAbs) else String.mk (natReprChars i.natAbs)

/-- Split a character list at every occurrence of `sep`, keeping empty
pieces: the semantics of Rust's `str::split` with the one-character pattern
`";"`. Always returns at least one piece. -/
def splitOnChar (sep : Char) : List Char → List (List Char)
  | [] => [[]]
  | c :: cs =>
    if c = sep then [] :: splitOnChar sep cs
    else
      match splitOnChar sep cs with
      | [] => [[c]]
      | p :: ps => (c :: p) :: ps

/-- Join character lists with `sep` between consecutive pieces: the
semantics of Rust's `[String]::join(";")`. -/
def intercalateChar (sep : Char) : List (List Char) → List Char
  | [] => []
  | [p] => p
  | p :: ps => p ++ sep :: intercalateChar sep ps

/-- Embedding of `BedrockEdition` (src/network/bedrock.rs). -/
inductive BedrockEdition where
  | MCPE
  | MCEE
deriving DecidableEq, Repr

/-- Embedding of `BedrockEdition::encode`. -/
def BedrockEdition.encode : BedrockEdition → String
  | .MCPE => "MCPE"
  | .MCEE => "MCEE"

/-- Embedding of `BedrockEdition::decode`: the two known tags decode, any
other string is `MotdInvalid`. -/
def BedrockEdition.decode (buf : String) : Except CCProxyError BedrockEdition :=
  if buf = "MCPE" then .ok .MCPE
  else if buf = "MCEE" then .ok .MCEE
  else .error .MotdInvalid

/-- Embedding of `BedrockGametype` (src/network/bedrock.rs). -/
inductive BedrockGametype where
  | Survival
  | Creative
deriving DecidableEq, Repr

/-- Embedding of `BedrockGametype::encode`. -/
def BedrockGametype.encode : BedrockGametype → String
  | .Survival => "Survival"
  | .Creative => "Creative"

/-- Embedding of `BedrockGametype::decode`: the two known tags decode, any
other string is `MotdInvalid`. -/
def BedrockGametype.decode (buf : String) : Except CCProxyError BedrockGametype :=
  if buf = "Survival" then .ok .Survival
  else if buf = "Creative" then .ok .Creative
  else .error .MotdInvalid

/-- Embedding of the `BedrockMotd` identity record (src/network/bedrock.rs):
`i32` fields as `Int`, `u64`/`u16` fields as `Nat`. -/
structure BedrockMotd where
  edition : BedrockEdition
  server_name : String
  protocol_version : Int
  version : String
  num_players : Int
  max_players : Int
  guid : Nat
  server_sub_name : String
  gametype : BedrockGametype
  nintendo_limited : Bool
  ipv4_port : Option Nat
  ipv6_port : Option Nat
deriving DecidableEq, Repr

/-- Embedding of `BedrockMotd::encode`: build the ten fixed fields (guid
replaced by the override when supplied, the Nintendo flag encoded inverted),
append the port fields per the `(ipv4, ipv6)` match, join with `;`, and
append the trailing `;` (the `format!("{};", ..)`). -/
def BedrockMotd.encode (m : BedrockMotd) (guid : Option Nat) : String :=
  let motd : List String := [
    m.edition.encode,
    m.server_name,
    intRepr m.protocol_version,
    m.version,
    intRepr m.num_players,
    intRepr m.max_players,
    (match guid with
     | some g => natRepr g
     | none => natRepr m.guid),
    m.server_sub_name,
    m.gametype.encode,
    if m.nintendo_limited then "0" else "1"]
  let motd := motd ++
    (match m.ipv4_port, m.ipv6_port with
     | some ipv4_port, some ipv6_port => [natRepr ipv4_port, natRepr ipv6_port]
     | some ipv4_port, none => [natRepr ipv4_port]
     | _, _ => [])
  String.mk (intercalateChar ';' (motd.map String.data) ++ [';'])

/-- Second formulation of the identity encoder, written from the
specification's words (§4.1) for the refinement claim: every field in the
fixed order, each terminated by `;`, the guid override replacing the stored
guid when supplied, the platform flag inverted, and the 0/1/2 trailing port
fields per the three shapes. To be compared with `BedrockMotd.encode`,
which is translated from the source. -/
def BedrockMotd.encodeSpec (m : BedrockMotd) (guid : Option Nat) : String :=
  m.edition.encode ++ ";" ++
  m.server_name ++ ";" ++
  intRepr m.protocol_version ++ ";" ++
  m.version ++ ";" ++
  intRepr m.num_players ++ ";" ++
  intRepr m.max_players ++ ";" ++
  natRepr (guid.getD m.guid) ++ ";" ++
  m.server_sub_name ++ ";" ++
  m.gametype.encode ++ ";" ++
  (if m.nintendo_limited then "0" else "1") ++ ";" ++
  (match m.ipv4_port, m.ipv6_port with
   | some p4, some p6 => natRepr p4 ++ ";" ++ natRepr p6 ++ ";"
   | some p4, none => natRepr p4 ++ ";"
   | _, _ => "")

/-- Final override step of `BedrockMotd::decode`: the `match (ipv4_port,
ipv6_port)` that writes the supplied port overrides into the freshly built
record (both when both are supplied, only IPv4 when only it is supplied,
nothing otherwise). -/
def applyPortOverrides (ipv4_port ipv6_port : Option Nat) (motd : BedrockMotd) : BedrockMotd :=
  match ipv4_port, ipv6_port with
  | some p4, some p6 => { motd with ipv4_port := some p4, ipv6_port := some p6 }
  | some p4, none => { motd with ipv4_port := some p4 }
  | _, _ => motd

/-- Body of `BedrockMotd::decode` after the `split(";")`: the length range
check `(11..=14).contains(&buf.len())`, then the field reads in source
order. Each fallible step (`?`) is one `match` layer; `buf[i]` for the
in-bounds indices `0..=9` is `buf.getD i ""`. Note the wire guid is parsed
unconditionally (Rust's `unwrap_or` evaluates its argument eagerly, so the
`?` inside it fires even when the override is supplied), and the ports of
the built record start as `none` and are then filled from the override
parameters only. -/
def BedrockMotd.decodeParts (buf : List String) (guid ipv4_port ipv6_port : Option Nat) :
    Except CCProxyError BedrockMotd :=
  if 11 ≤ buf.length ∧ buf.length ≤ 14 then
    match BedrockEdition.decode (buf.getD 0 "") with
    | .error e => .error e
    | .ok edition =>
      match parseI32 (buf.getD 2 "") with
      | none => .error .MotdInvalid
      | some protocol_version =>
        match parseI32 (buf.getD 4 "") with
        | none => .error .MotdInvalid
        | some num_players =>
          match parseI32 (buf.getD 5 "") with
          | none => .error .MotdInvalid
          | some max_players =>
            match parseU64 (buf.getD 6 "") with
            | none => .error .MotdInvalid
            | some wire_guid =>
              match BedrockGametype.decode (buf.getD 8 "") with
              | .error e => .error e
              | .ok gametype =>
                let motd : BedrockMotd := {
                  edition := edition
                  server_name := buf.getD 1 ""
                  protocol_version := protocol_version
                  version := buf.getD 3 ""
                  num_players := num_players
                  max_players := max_players
                  guid := guid.getD wire_guid
                  server_sub_name := buf.getD 7 ""
                  gametype := gametype
                  nintendo_limited := buf.getD 9 "" == "0"
                  ipv4_port := none
                  ipv6_port := none }
                .ok (applyPortOverrides ipv4_port ipv6_port motd)
  else .error .MotdInvalid

/-- Embedding of `BedrockMotd::decode`: split the input on `;` and run the
field pipeline `decodeParts` on the resulting pieces. -/
def BedrockMotd.decode (buf : String) (guid ipv4_port ipv6_port : Option Nat) :
    Except CCProxyError BedrockMotd :=
  BedrockMotd.decodeParts ((splitOnChar ';' buf.data).map (fun p => String.mk p))
    guid ipv4_port ipv6_port

/-- Embedding of `ProxyQueryConfig` (src/config.rs). The `host_ip` field's
type `IpAddr` and its standard-library parser are external to the
repository, so the record and its constructor are parameterised by the IP
address type. -/
structure ProxyQueryConfig (Ip : Type) where
  motd : String
  game_type : String
  map : String
  num_players : Nat
  max_players : Nat
  host_port : Nat
  host_ip : Ip
  version : String
  plugins : Option String
  players : List String

/-- Embedding of `ProxyQueryConfig::from_kv_and_players`: each mandatory key
is looked up (`ok_or(QueryInvalid)?`) and, for the numeric/IP fields, parsed
(`map_err(|_| QueryInvalid)?`), in source order; `plugins` is
`k_v_section.get("plugins").cloned()` and `players` is attached verbatim.
The `HashMap` is modelled as its lookup function, and the standard-library
`IpAddr` parser as the `parseIp` parameter. -/
def ProxyQueryConfig.from_kv_and_players {Ip : Type} (parseIp : String → Option Ip)
    (k_v_section : String → Option String) (players : List String) :
    Except CCProxyError (ProxyQueryConfig Ip) :=
  match k_v_section "hostname" with
  | none => .error .QueryInvalid
  | some motd =>
    match k_v_section "gametype" with
    | none => .error .QueryInvalid
    | some game_type =>
      match k_v_section "map" with
      | none => .error .QueryInvalid
      | some map =>
        match k_v_section "numplayers" with
        | none => .error .QueryInvalid
        | some v1 =>
          match parseU64 v1 with
          | none => .error .QueryInvalid
          | some num_players =>
            match k_v_section "maxplayers" with
            | none => .error .QueryInvalid
            | some v2 =>
              match parseU64 v2 with
              | none => .error .QueryInvalid
              | some max_players =>
                match k_v_section "hostport" with
                | none => .error .QueryInvalid
                | some v3 =>
                  match parseU16 v3 with
                  | none => .error .QueryInvalid
                  | some host_port =>
                    match k_v_section "hostip" with
                    | none => .error .QueryInvalid
                    | some v4 =>
                      match parseIp v4 with
                      | none => .error .QueryInvalid
                      | some host_ip =>
                        match k_v_section "version" with
                        | none => .error .QueryInvalid
                        | some version =>
                          .ok {
                            motd := motd
                            game_type := game_type
                            map := map
                            num_players := num_players
                            max_players := max_players
                            host_port := host_port
                            host_ip := host_ip
                            version := version
                            plugins := k_v_section "plugins"
                            players := players }

/-! Decimal printing and parsing round-trip. -/

theorem natDigitsAux_eq_digits : ∀ fuel n : Nat, n ≤ fuel → natDigitsAux fuel n = Nat.digits 10 n := by
  intro fuel
  induction fuel with
  | zero =>
    intro n h
    have h0 : n = 0 := Nat.le_zero.mp h
    subst h0
    simp [natDigitsAux]
  | succ fuel ih =>
    intro n h
    by_cases h0 : n = 0
    · subst h0
      simp [natDigitsAux]
    · rw [natDigitsAux, if_neg h0,
        Nat.digits_def' (by norm_num : (1 : Nat) < 10) (Nat.pos_of_ne_zero h0)]
      have hlt : n / 10 < n := Nat.div_lt_self (Nat.pos_of_ne_zero h0) (by norm_num)
      rw [ih (n / 10) (by omega)]

theorem natDigits_eq_digits (n : Nat) : natDigits n = Nat.digits 10 n :=
  natDigitsAux_eq_digits n n le_rfl

theorem charDigit_digitChar : ∀ d : Nat, d < 10 → charDigit (Nat.digitChar d) = some d := by
  decide

theorem digitChar_not_special : ∀ d : Nat, d < 10 →
    Nat.digitChar d ≠ ';' ∧ Nat.digitChar d ≠ '+' ∧ Nat.digitChar d ≠ '-' := by
  decide

theorem parseDigitsAux_map_digitChar :
    ∀ ds : List Nat, (∀ d ∈ ds, d < 10) → ∀ acc : Nat,
      parseDigitsAux acc (ds.map Nat.digitChar) =
        some (acc * 10 ^ ds.length + Nat.ofDigits 10 ds.reverse) := by
  intro ds
  induction ds with
  | nil =>
    intro _ acc
    simp [parseDigitsAux, Nat.ofDigits_nil]
  | cons d ds ih =>
    intro h acc
    have hd : d < 10 := h d (List.mem_cons_self d ds)
    simp only [List.map_cons, parseDigitsAux, charDigit_digitChar d hd]
    rw [ih (fun x hx => h x (List.mem_cons_of_mem d hx)) (acc * 10 + d)]
    congr 1
    rw [List.reverse_cons, Nat.ofDigits_append, Nat.ofDigits_singleton]
    simp only [List.length_reverse, List.length_cons, pow_succ]
    ring

theorem natReprChars_ne_nil (n : Nat) : natReprChars n ≠ [] := by
  unfold natReprChars
  by_cases h0 : n = 0
  · simp [h0]
  · rw [if_neg h0]
    simp [natDigits_eq_digits, Nat.digits_ne_nil_iff_ne_zero.mpr h0]

theorem mem_natReprChars (n : Nat) (c : Char) (hc : c ∈ natReprChars n) :
    ∃ d : Nat, d < 10 ∧ c = Nat.digitChar d := by
  unfold natReprChars at hc
  by_cases h0 : n = 0
  · rw [if_pos h0] at hc
    refine ⟨0, by norm_num, ?_⟩
    simpa [Nat.digitChar] using hc
  · rw [if_neg h0, List.mem_reverse, List.mem_map] at hc
    obtain ⟨d, hd, rfl⟩ := hc
    rw [natDigits_eq_digits] at hd
    exact ⟨d, Nat.digits_lt_base (by norm_num) hd, rfl⟩

theorem parseNatChars_natReprChars (n : Nat) : parseNatChars (natReprChars n) = some n := by
  by_cases h0 : n = 0
  · subst h0
    decide
  · unfold natReprChars
    rw [if_neg h0, natDigits_eq_digits]
    have hne : Nat.digits 10 n ≠ [] := Nat.digits_ne_nil_iff_ne_zero.mpr h0
    rw [← List.map_reverse]
    rw [parseNatChars, if_neg (by simpa using hne)]
    rw [parseDigitsAux_map_digitChar ((Nat.digits 10 n).reverse)
      (fun d hd => Nat.digits_lt_base (by norm_num) (List.mem_reverse.mp hd)) 0]
    simp [Nat.ofDigits_digits]

theorem natReprChars_cons (n : Nat) :
    ∃ c rest, natReprChars n = c :: rest ∧ c ≠ '+' ∧ c ≠ '-' := by
  cases hh : natReprChars n with
  | nil => exact absurd hh (natReprChars_ne_nil n)
  | cons c rest =>
    have hcmem : c ∈ natReprChars n := by
      rw [hh]; exact List.mem_cons_self c rest
    obtain ⟨d, hd, hcd⟩ := mem_natReprChars n c hcmem
    refine ⟨c, rest, rfl, ?_, ?_⟩
    · rw [hcd]; exact (digitChar_not_special d hd).2.1
    · rw [hcd]; exact (digitChar_not_special d hd).2.2

theorem semi_not_mem_natReprChars (n : Nat) : ';' ∉ natReprChars n := by
  intro hmem
  obtain ⟨d, hd, hcd⟩ := mem_natReprChars n ';' hmem
  exact (digitChar_not_special d hd).1 hcd.symm

theorem semi_not_mem_natRepr (n : Nat) : ';' ∉ (natRepr n).data :=
  semi_not_mem_natReprChars n

theorem semi_not_mem_intRepr (i : Int) : ';' ∉ (intRepr i).data := by
  unfold intRepr
  by_cases hneg : i < 0
  · rw [if_pos hneg]
    intro hmem
    rcases List.mem_cons.mp hmem with h | h
    · exact absurd h (by decide)
    · exact semi_not_mem_natReprChars i.natAbs h
  · rw [if_neg hneg]
    exact semi_not_mem_natReprChars i.natAbs

theorem parseUnsigned_eq (lim : Nat) (s : String) :
    parseUnsigned lim s =
      match s.data with
      | [] => none
      | c :: rest =>
        match parseNatChars (if c = '+' then rest else c :: rest) with
        | some n => if n < lim then some n else none
        | none => none := rfl

theorem parseUnsigned_natRepr (lim n : Nat) (h : n < lim) :
    parseUnsigned lim (natRepr n) = some n := by
  obtain ⟨c, rest, hc, hplus, _⟩ := natReprChars_cons n
  rw [parseUnsigned_eq]
  have hdata : (natRepr n).data = c :: rest := hc
  rw [hdata]
  show (match parseNatChars (if c = '+' then rest else c :: rest) with
        | some k => if k < lim then some k else none
        | none => none) = some n
  rw [if_neg hplus, ← hc, parseNatChars_natReprChars]
  show (if n < lim then some n else none) = some n
  rw [if_pos h]

theorem parseU64_natRepr (n : Nat) (h : n < 2 ^ 64) : parseU64 (natRepr n) = some n :=
  parseUnsigned_natRepr (2 ^ 64) n h

theorem parseI32_eq (s : String) :
    parseI32 s =
      match s.data with
      | [] => none
      | c :: rest =>
        if c = '-' then
          match parseNatChars rest with
          | some n => if n ≤ 2 ^ 31 then some (-(n : Int)) else none
          | none => none
        else
          match parseNatChars (if c = '+' then rest else c :: rest) with
          | some n => if n < 2 ^ 31 then some ((n : Int)) else none
          | none => none := rfl

theorem parseI32_intRepr (i : Int) (hlo : -(2 ^ 31) ≤ i) (hhi : i < 2 ^ 31) :
    parseI32 (intRepr i) = some i := by
  rw [parseI32_eq]
  by_cases hneg : i < 0
  · have hdata : (intRepr i).data = '-' :: natReprChars i.natAbs := by
      rw [intRepr, if_pos hneg]
    rw [hdata]
    show (if ('-' : Char) = '-' then
            match parseNatChars (natReprChars i.natAbs) with
            | some n => if n ≤ 2 ^ 31 then some (-(n : Int)) else none
            | none => none
          else _) = some i
    rw [if_pos rfl, parseNatChars_natReprChars]
    show (if i.natAbs ≤ 2 ^ 31 then some (-(i.natAbs : Int)) else none) = some i
    rw [if_pos (by omega)]
    congr 1
    omega
  · obtain ⟨c, rest, hc, hplus, hminus⟩ := natReprChars_cons i.natAbs
    have hdata : (intRepr i).data = c :: rest := by
      rw [intRepr, if_neg hneg]
      exact hc
    rw [hdata]
    show (if c = '-' then _
          else
            match parseNatChars (if c = '+' then rest else c :: rest) with
            | some n => if n < 2 ^ 31 then some ((n : Int)) else none
            | none => none) = some i
    rw [if_neg hminus, if_neg hplus, ← hc, parseNatChars_natReprChars]
    show (if i.natAbs < 2 ^ 31 then some ((i.natAbs : Int)) else none) = some i
    rw [if_pos (by omega)]
    congr 1
    omega

/-! Splitting and joining on the `;` delimiter. -/

theorem splitOnChar_append_sep (sep : Char) (rest : List Char) :
    ∀ p : List Char, sep ∉ p →
      splitOnChar sep (p ++ sep :: rest) = p :: splitOnChar sep rest := by
  intro p
  induction p with
  | nil => intro _; simp [splitOnChar]
  | cons c p ih =>
    intro hp
    have hc : c ≠ sep := fun e => hp (by rw [e]; exact List.mem_cons_self sep p)
    have hp2 : sep ∉ p := fun m => hp (List.mem_cons_of_mem c m)
    simp [splitOnChar, hc, ih hp2]

theorem splitOnChar_intercalate (sep : Char) :
    ∀ pieces : List (List Char), pieces ≠ [] → (∀ p ∈ pieces, sep ∉ p) →
      splitOnChar sep (intercalateChar sep pieces ++ [sep]) = pieces ++ [[]] := by
  intro pieces
  induction pieces with
  | nil => intro h _; exact absurd rfl h
  | cons p ps ih =>
    intro _ hfree
    cases ps with
    | nil =>
      have h1 : intercalateChar sep [p] = p := rfl
      rw [h1]
      have h2 : p ++ [sep] = p ++ sep :: ([] : List Char) := rfl
      rw [h2, splitOnChar_append_sep sep [] p (hfree p (List.mem_cons_self p []))]
      rfl
    | cons q qs =>
      have h1 : intercalateChar sep (p :: q :: qs) =
          p ++ sep :: intercalateChar sep (q :: qs) := rfl
      rw [h1, List.append_assoc, List.cons_append,
        splitOnChar_append_sep sep (intercalateChar sep (q :: qs) ++ [sep]) p
          (hfree p (List.mem_cons_self p (q :: qs))),
        ih (by simp) (fun r hr => hfree r (List.mem_cons_of_mem p hr))]
      rfl

/-! Tag codec facts. -/

theorem edition_decode_encode (ed : BedrockEdition) :
    BedrockEdition.decode ed.encode = .ok ed := by
  cases ed <;> rfl

theorem gametype_decode_encode (gt : BedrockGametype) :
    BedrockGametype.decode gt.encode = .ok gt := by
  cases gt <;> rfl

theorem edition_decode_error (s : String) (e : CCProxyError)
    (h : BedrockEdition.decode s = .error e) : e = .MotdInvalid := by
  unfold BedrockEdition.decode at h
  split_ifs at h
  all_goals simp_all

theorem gametype_decode_error (s : String) (e : CCProxyError)
    (h : BedrockGametype.decode s = .error e) : e = .MotdInvalid := by
  unfold BedrockGametype.decode at h
  split_ifs at h
  all_goals simp_all

/-! Characterization of the identity-decode pipeline. -/

theorem decodeParts_ok_iff (buf : List String) (g p4 p6 : Option Nat) (m : BedrockMotd) :
    BedrockMotd.decodeParts buf g p4 p6 = .ok m ↔
      ((11 ≤ buf.length ∧ buf.length ≤ 14) ∧
        ∃ ed pv np mp wg gt,
          BedrockEdition.decode (buf.getD 0 "") = .ok ed ∧
          parseI32 (buf.getD 2 "") = some pv ∧
          parseI32 (buf.getD 4 "") = some np ∧
          parseI32 (buf.getD 5 "") = some mp ∧
          parseU64 (buf.getD 6 "") = some wg ∧
          BedrockGametype.decode (buf.getD 8 "") = .ok gt ∧
          m = applyPortOverrides p4 p6 {
            edition := ed, server_name := buf.getD 1 "", protocol_version := pv,
            version := buf.getD 3 "", num_players := np, max_players := mp,
            guid := g.getD wg, server_sub_name := buf.getD 7 "", gametype := gt,
            nintendo_limited := buf.getD 9 "" == "0",
            ipv4_port := none, ipv6_port := none }) := by
  constructor
  · intro h
    unfold BedrockMotd.decodeParts at h
    by_cases hlen : 11 ≤ buf.length ∧ buf.length ≤ 14
    · rw [if_pos hlen] at h
      refine ⟨hlen, ?_⟩
      cases h0 : BedrockEdition.decode (buf.getD 0 "") with
      | error e0 => rw [h0] at h; exact Except.noConfusion h
      | ok ed =>
        rw [h0] at h
        cases h2 : parseI32 (buf.getD 2 "") with
        | none => rw [h2] at h; exact Except.noConfusion h
        | some pv =>
          rw [h2] at h
          cases h4 : parseI32 (buf.getD 4 "") with
          | none => rw [h4] at h; exact Except.noConfusion h
          | some np =>
            rw [h4] at h
            cases h5 : parseI32 (buf.getD 5 "") with
            | none => rw [h5] at h; exact Except.noConfusion h
            | some mp =>
              rw [h5] at h
              cases h6 : parseU64 (buf.getD 6 "") with
              | none => rw [h6] at h; exact Except.noConfusion h
              | some wg =>
                rw [h6] at h
                cases h8 : BedrockGametype.decode (buf.getD 8 "") with
                | error e8 => rw [h8] at h; exact Except.noConfusion h
                | ok gt =>
                  rw [h8] at h
                  injection h with h9
                  exact ⟨ed, pv, np, mp, wg, gt, rfl, rfl, rfl, rfl, rfl, rfl, h9.symm⟩
    · rw [if_neg hlen] at h
      exact Except.noConfusion h
  · rintro ⟨hlen, ed, pv, np, mp, wg, gt, h0, h2, h4, h5, h6, h8, hm⟩
    unfold BedrockMotd.decodeParts
    rw [if_pos hlen, h0, h2, h4, h5, h6, h8, hm]

theorem decodeParts_error_eq (buf : List String) (g p4 p6 : Option Nat) (e : CCProxyError)
    (h : BedrockMotd.decodeParts buf g p4 p6 = .error e) : e = .MotdInvalid := by
  unfold BedrockMotd.decodeParts at h
  by_cases hlen : 11 ≤ buf.length ∧ buf.length ≤ 14
  · rw [if_pos hlen] at h
    cases h0 : BedrockEdition.decode (buf.getD 0 "") with
    | error e0 =>
      rw [h0] at h
      injection h with h1
      rw [← h1]
      exact edition_decode_error _ e0 h0
    | ok ed =>
      rw [h0] at h
      cases h2 : parseI32 (buf.getD 2 "") with
      | none => rw [h2] at h; injection h with h1; exact h1.symm
      | some pv =>
        rw [h2] at h
        cases h4 : parseI32 (buf.getD 4 "") with
        | none => rw [h4] at h; injection h with h1; exact h1.symm
        | some np =>
          rw [h4] at h
          cases h5 : parseI32 (buf.getD 5 "") with
          | none => rw [h5] at h; injection h with h1; exact h1.symm
          | some mp =>
            rw [h5] at h
            cases h6 : parseU64 (buf.getD 6 "") with
            | none => rw [h6] at h; injection h with h1; exact h1.symm
            | some wg =>
              rw [h6] at h
              cases h8 : BedrockGametype.decode (buf.getD 8 "") with
              | error e8 =>
                rw [h8] at h
                injection h with h1
                rw [← h1]
                exact gametype_decode_error _ e8 h8
              | ok gt => rw [h8] at h; exact Except.noConfusion h
  · rw [if_neg hlen] at h
    injection h with h1
    exact h1.symm

theorem decodeParts_not_ok (buf : List String) (g p4 p6 : Option Nat)
    (h : ∀ m : BedrockMotd, BedrockMotd.decodeParts buf g p4 p6 ≠ .ok m) :
    BedrockMotd.decodeParts buf g p4 p6 = .error .MotdInvalid := by
  cases hd : BedrockMotd.decodeParts buf g p4 p6 with
  | ok m => exact absurd hd (h m)
  | error e => rw [decodeParts_error_eq buf g p4 p6 e hd]

/-! Round-trip of the identity codec. -/

theorem mk_data (s : String) : String.mk s.data = s := rfl

theorem flag_beq : ∀ b : Bool, ((if b then "0" else "1") == "0") = b := by
  decide

theorem semi_not_mem_edition (ed : BedrockEdition) : ';' ∉ ed.encode.data := by
  cases ed <;> decide

theorem semi_not_mem_gametype (gt : BedrockGametype) : ';' ∉ gt.encode.data := by
  cases gt <;> decide

theorem semi_not_mem_flag (b : Bool) : ';' ∉ (if b then "0" else "1").data := by
  cases b <;> decide

theorem decodeParts_of_fields (m : BedrockMotd)
    (hpv1 : -(2 ^ 31) ≤ m.protocol_version) (hpv2 : m.protocol_version < 2 ^ 31)
    (hnp1 : -(2 ^ 31) ≤ m.num_players) (hnp2 : m.num_players < 2 ^ 31)
    (hmp1 : -(2 ^ 31) ≤ m.max_players) (hmp2 : m.max_players < 2 ^ 31)
    (hg : m.guid < 2 ^ 64)
    (tail : List String) (htail : tail.length ≤ 3) :
    BedrockMotd.decodeParts
      ([m.edition.encode, m.server_name, intRepr m.protocol_version, m.version,
        intRepr m.num_players, intRepr m.max_players, natRepr m.guid,
        m.server_sub_name, m.gametype.encode,
        if m.nintendo_limited then "0" else "1"] ++ (tail ++ [""]))
      none none none =
      .ok { m with ipv4_port := none, ipv6_port := none } := by
  rw [decodeParts_ok_iff]
  refine ⟨⟨?_, ?_⟩, ?_⟩
  · simp
  · simp; omega
  · refine ⟨m.edition, m.protocol_version, m.num_players, m.max_players, m.guid,
      m.gametype, ?_, ?_, ?_, ?_, ?_, ?_, ?_⟩
    · simp [edition_decode_encode]
    · simp [parseI32_intRepr m.protocol_version hpv1 hpv2]
    · simp [parseI32_intRepr m.num_players hnp1 hnp2]
    · simp [parseI32_intRepr m.max_players hmp1 hmp2]
    · simp [parseU64_natRepr m.guid hg]
    · simp [gametype_decode_encode]
    · cases m
      simp [applyPortOverrides, flag_beq]

theorem mk_nil : String.mk [] = "" := rfl

theorem semi_free_fields (m : BedrockMotd)
    (hn : ';' ∉ m.server_name.data) (hv : ';' ∉ m.version.data)
    (hs : ';' ∉ m.server_sub_name.data)
    (tail : List String) (htail : ∀ t ∈ tail, ';' ∉ t.data) :
    ∀ p ∈ (([m.edition.encode, m.server_name, intRepr m.protocol_version, m.version,
        intRepr m.num_players, intRepr m.max_players, natRepr m.guid,
        m.server_sub_name, m.gametype.encode,
        if m.nintendo_limited then "0" else "1"] ++ tail).map String.data),
      ';' ∉ p := by
  intro p hp
  simp only [List.map_append, List.mem_append] at hp
  rcases hp with hp | hp
  · simp only [List.map_cons, List.map_nil, List.mem_cons, List.not_mem_nil, or_false] at hp
    rcases hp with rfl | rfl | rfl | rfl | rfl | rfl | rfl | rfl | rfl | rfl
    exacts [semi_not_mem_edition m.edition, hn, semi_not_mem_intRepr m.protocol_version, hv,
      semi_not_mem_intRepr m.num_players, semi_not_mem_intRepr m.max_players,
      semi_not_mem_natRepr m.guid, hs, semi_not_mem_gametype m.gametype,
      semi_not_mem_flag m.nintendo_limited]
  · rw [List.mem_map] at hp
    obtain ⟨t, ht, rfl⟩ := hp
    exact htail t ht

/-- C1 (amended): decoding the encoding of a well-formed record (no `;` in
its free-text fields, numeric fields in range) with no overrides returns
the record with BOTH ports erased to `none` — not the record itself when it
carried ports. -/
theorem c1_decode_encode_ports_cleared (m : BedrockMotd)
    (hn : ';' ∉ m.server_name.data) (hv : ';' ∉ m.version.data)
    (hs : ';' ∉ m.server_sub_name.data)
    (hpv1 : -(2 ^ 31) ≤ m.protocol_version) (hpv2 : m.protocol_version < 2 ^ 31)
    (hnp1 : -(2 ^ 31) ≤ m.num_players) (hnp2 : m.num_players < 2 ^ 31)
    (hmp1 : -(2 ^ 31) ≤ m.max_players) (hmp2 : m.max_players < 2 ^ 31)
    (hg : m.guid < 2 ^ 64) :
    BedrockMotd.decode (m.encode none) none none none =
      .ok { m with ipv4_port := none, ipv6_port := none } := by
  unfold BedrockMotd.decode
  rcases hp4 : m.ipv4_port with _ | a
  · have hdata : (m.encode none).data =
        intercalateChar ';'
          (([m.edition.encode, m.server_name, intRepr m.protocol_version, m.version,
             intRepr m.num_players, intRepr m.max_players, natRepr m.guid,
             m.server_sub_name, m.gametype.encode,
             if m.nintendo_limited then "0" else "1"] ++ ([] : List String)).map
            String.data) ++ [';'] := by
      simp only [BedrockMotd.encode, hp4]
    rw [hdata, splitOnChar_intercalate ';' _ (by simp)
      (semi_free_fields m hn hv hs [] (by simp))]
    have hmk :
        ((([m.edition.encode, m.server_name, intRepr m.protocol_version, m.version,
            intRepr m.num_players, intRepr m.max_players, natRepr m.guid,
            m.server_sub_name, m.gametype.encode,
            if m.nintendo_limited then "0" else "1"] ++ ([] : List String)).map
              String.data ++ [[]]).map (fun p => String.mk p)) =
          [m.edition.encode, m.server_name, intRepr m.protocol_version, m.version,
           intRepr m.num_players, intRepr m.max_players, natRepr m.guid,
           m.server_sub_name, m.gametype.encode,
           if m.nintendo_limited then "0" else "1"] ++ (([] : List String) ++ [""]) := by
      simp [mk_data, mk_nil]
    rw [hmk]
    exact decodeParts_of_fields m hpv1 hpv2 hnp1 hnp2 hmp1 hmp2 hg [] (by simp)
  · rcases hp6 : m.ipv6_port with _ | b
    · have hdata : (m.encode none).data =
          intercalateChar ';'
            (([m.edition.encode, m.server_name, intRepr m.protocol_version, m.version,
               intRepr m.num_players, intRepr m.max_players, natRepr m.guid,
               m.server_sub_name, m.gametype.encode,
               if m.nintendo_limited then "0" else "1"] ++ [natRepr a]).map
              String.data) ++ [';'] := by
        simp only [BedrockMotd.encode, hp4, hp6]
      rw [hdata, splitOnChar_intercalate ';' _ (by simp)
        (semi_free_fields m hn hv hs [natRepr a] (by simp [semi_not_mem_natRepr]))]
      have hmk :
          ((([m.edition.encode, m.server_name, intRepr m.protocol_version, m.version,
              intRepr m.num_players, intRepr m.max_players, natRepr m.guid,
              m.server_sub_name, m.gametype.encode,
              if m.nintendo_limited then "0" else "1"] ++ [natRepr a]).map
                String.data ++ [[]]).map (fun p => String.mk p)) =
            [m.edition.encode, m.server_name, intRepr m.protocol_version, m.version,
             intRepr m.num_players, intRepr m.max_players, natRepr m.guid,
             m.server_sub_name, m.gametype.encode,
             if m.nintendo_limited then "0" else "1"] ++ ([natRepr a] ++ [""]) := by
        simp [mk_data, mk_nil]
      rw [hmk]
      exact decodeParts_of_fields m hpv1 hpv2 hnp1 hnp2 hmp1 hmp2 hg [natRepr a] (by simp)
    · have hdata : (m.encode none).data =
          intercalateChar ';'
            (([m.edition.encode, m.server_name, intRepr m.protocol_version, m.version,
               intRepr m.num_players, intRepr m.max_players, natRepr m.guid,
               m.server_sub_name, m.gametype.encode,
               if m.nintendo_limited then "0" else "1"] ++ [natRepr a, natRepr b]).map
              String.data) ++ [';'] := by
        simp only [BedrockMotd.encode, hp4, hp6]
      rw [hdata, splitOnChar_intercalate ';' _ (by simp)
        (semi_free_fields m hn hv hs [natRepr a, natRepr b] (by simp [semi_not_mem_natRepr]))]
      have hmk :
          ((([m.edition.encode, m.server_name, intRepr m.protocol_version, m.version,
              intRepr m.num_players, intRepr m.max_players, natRepr m.guid,
              m.server_sub_name, m.gametype.encode,
              if m.nintendo_limited then "0" else "1"] ++ [natRepr a, natRepr b]).map
                String.data ++ [[]]).map (fun p => String.mk p)) =
            [m.edition.encode, m.server_name, intRepr m.protocol_version, m.version,
             intRepr m.num_players, intRepr m.max_players, natRepr m.guid,
             m.server_sub_name, m.gametype.encode,
             if m.nintendo_limited then "0" else "1"] ++ ([natRepr a, natRepr b] ++ [""]) := by
        simp [mk_data, mk_nil]
      rw [hmk]
      exact decodeParts_of_fields m hpv1 hpv2 hnp1 hnp2 hmp1 hmp2 hg
        [natRepr a, natRepr b] (by simp)

/-- C1 (counterexample): the spec's concrete identity string decodes, with
no overrides, to a record whose ports are BOTH `none` — not ipv4Port 19132
and ipv6Port 19133 as claimed — and re-encoding the decoded record yields
the string with the two port fields dropped, not the original string. -/
theorem c1_counterexample :
    BedrockMotd.decode "MCPE;MyServer;827;1.21.101;3;20;12345;MyServer;Survival;1;19132;19133;"
        none none none =
      Except.ok {
        edition := .MCPE, server_name := "MyServer", protocol_version := 827,
        version := "1.21.101", num_players := 3, max_players := 20, guid := 12345,
        server_sub_name := "MyServer", gametype := .Survival, nintendo_limited := false,
        ipv4_port := none, ipv6_port := none } ∧
    BedrockMotd.encode {
        edition := .MCPE, server_name := "MyServer", protocol_version := 827,
        version := "1.21.101", num_players := 3, max_players := 20, guid := 12345,
        server_sub_name := "MyServer", gametype := .Survival, nintendo_limited := false,
        ipv4_port := none, ipv6_port := none } none =
      "MCPE;MyServer;827;1.21.101;3;20;12345;MyServer;Survival;1;" ∧
    "MCPE;MyServer;827;1.21.101;3;20;12345;MyServer;Survival;1;" ≠
      "MCPE;MyServer;827;1.21.101;3;20;12345;MyServer;Survival;1;19132;19133;" := by
  refine ⟨by decide, by decide, by decide⟩

/-- C1 (witness): the round-trip theorem applied to a concrete record
carrying an IPv4 port. -/
theorem c1_witness :
    BedrockMotd.decode
        (BedrockMotd.encode {
          edition := .MCPE, server_name := "CCProxy", protocol_version := 827,
          version := "1.21.101", num_players := 0, max_players := 100, guid := 12345,
          server_sub_name := "CCProxy", gametype := .Survival, nintendo_limited := false,
          ipv4_port := some 19132, ipv6_port := some 19133 } none) none none none =
      Except.ok {
        edition := .MCPE, server_name := "CCProxy", protocol_version := 827,
        version := "1.21.101", num_players := 0, max_players := 100, guid := 12345,
        server_sub_name := "CCProxy", gametype := .Survival, nintendo_limited := false,
        ipv4_port := none, ipv6_port := none } :=
  c1_decode_encode_ports_cleared
    { edition := .MCPE, server_name := "CCProxy", protocol_version := 827,
      version := "1.21.101", num_players := 0, max_players := 100, guid := 12345,
      server_sub_name := "CCProxy", gametype := .Survival, nintendo_limited := false,
      ipv4_port := some 19132, ipv6_port := some 19133 }
    (by decide) (by decide) (by decide) (by decide) (by decide) (by decide)
    (by decide) (by decide) (by decide) (by decide)

/-- C2 (counterexample): an input whose `;`-split has exactly 12 pieces is
NOT rejected — it decodes successfully, so the decoder does a range check
of the count, not an exact-shape check of the set containing 11, 13, 14. -/
theorem c2_counterexample :
    (splitOnChar ';' ("MCPE;A;0;v;0;0;0;B;Survival;1;19132;" : String).data).length = 12 ∧
    BedrockMotd.decode "MCPE;A;0;v;0;0;0;B;Survival;1;19132;" none none none =
      Except.ok {
        edition := .MCPE, server_name := "A", protocol_version := 0,
        version := "v", num_players := 0, max_players := 0, guid := 0,
        server_sub_name := "B", gametype := .Survival, nintendo_limited := false,
        ipv4_port := none, ipv6_port := none } := by
  refine ⟨by decide, by decide⟩

/-- C2 (amended): identity decode fails with `MotdInvalid` for every input
whose `;`-split piece count lies outside the inclusive RANGE 11 to 14; the
counts inside the range (12 and 14 included) pass the length check. -/
theorem c2_out_of_range_rejected (s : String) (g p4 p6 : Option Nat)
    (h : ¬(11 ≤ ((splitOnChar ';' s.data).map (fun p => String.mk p)).length ∧
        ((splitOnChar ';' s.data).map (fun p => String.mk p)).length ≤ 14)) :
    BedrockMotd.decode s g p4 p6 = .error .MotdInvalid := by
  unfold BedrockMotd.decode BedrockMotd.decodeParts
  rw [if_neg h]

/-- C2 (witness): a 10-piece input is rejected. -/
theorem c2_witness :
    BedrockMotd.decode "MCPE;A;0;v;0;0;0;B;Survival;1" none none none =
      .error .MotdInvalid :=
  c2_out_of_range_rejected "MCPE;A;0;v;0;0;0;B;Survival;1" none none none (by decide)

theorem applyPortOverrides_guid (p4 p6 : Option Nat) (x : BedrockMotd) :
    (applyPortOverrides p4 p6 x).guid = x.guid := by
  cases p4 <;> cases p6 <;> rfl

theorem applyPortOverrides_nintendo (p4 p6 : Option Nat) (x : BedrockMotd) :
    (applyPortOverrides p4 p6 x).nintendo_limited = x.nintendo_limited := by
  cases p4 <;> cases p6 <;> rfl

/-- C3 (amended): in a successful decode the guid override always wins, and
the port overrides are applied exactly per the source's match: both ports
when both are supplied, only IPv4 when only it is supplied, and — contrary
to the claim — an IPv6 override supplied without an IPv4 override is
IGNORED (whenever the IPv4 override is absent both ports come back
`none`). -/
theorem c3_overrides (s : String) (g p4 p6 : Option Nat) (r : BedrockMotd)
    (h : BedrockMotd.decode s g p4 p6 = .ok r) :
    (∀ g0, g = some g0 → r.guid = g0) ∧
    (∀ a b, p4 = some a → p6 = some b → r.ipv4_port = some a ∧ r.ipv6_port = some b) ∧
    (∀ a, p4 = some a → p6 = none → r.ipv4_port = some a ∧ r.ipv6_port = none) ∧
    (p4 = none → r.ipv4_port = none ∧ r.ipv6_port = none) := by
  unfold BedrockMotd.decode at h
  rw [decodeParts_ok_iff] at h
  obtain ⟨-, ed, pv, np, mp, wg, gt, -, -, -, -, -, -, rfl⟩ := h
  refine ⟨?_, ?_, ?_, ?_⟩
  · intro g0 hg0
    subst hg0
    rw [applyPortOverrides_guid]
    rfl
  · intro a b ha hb
    subst ha
    subst hb
    exact ⟨rfl, rfl⟩
  · intro a ha hb
    subst ha
    subst hb
    exact ⟨rfl, rfl⟩
  · intro hp
    subst hp
    cases p6 <;> exact ⟨rfl, rfl⟩

/-- C3 (counterexample): supplying an IPv6 override with no IPv4 override
does NOT replace the port in the returned record — the override is dropped
and both ports come back `none`, refuting "for every combination of
supplied overrides, including an ipv6 override supplied without an ipv4
override". -/
theorem c3_counterexample :
    BedrockMotd.decode "MCPE;A;0;v;0;0;0;B;Survival;1;" none none (some 1) =
      Except.ok {
        edition := .MCPE, server_name := "A", protocol_version := 0,
        version := "v", num_players := 0, max_players := 0, guid := 0,
        server_sub_name := "B", gametype := .Survival, nintendo_limited := false,
        ipv4_port := none, ipv6_port := none } := by
  decide

/-- C3 (witness): the override theorem applied to a concrete decode with a
guid override and both port overrides. -/
theorem c3_witness :
    BedrockMotd.decode "MCPE;A;0;v;0;0;0;B;Survival;1;" (some 5) (some 7) (some 8) =
      Except.ok {
        edition := .MCPE, server_name := "A", protocol_version := 0,
        version := "v", num_players := 0, max_players := 0, guid := 5,
        server_sub_name := "B", gametype := .Survival, nintendo_limited := false,
        ipv4_port := some 7, ipv6_port := some 8 } ∧
    ({ edition := .MCPE, server_name := "A", protocol_version := 0,
       version := "v", num_players := 0, max_players := 0, guid := 5,
       server_sub_name := "B", gametype := .Survival, nintendo_limited := false,
       ipv4_port := some 7, ipv6_port := some 8 } : BedrockMotd).guid = 5 ∧
    ({ edition := .MCPE, server_name := "A", protocol_version := 0,
       version := "v", num_players := 0, max_players := 0, guid := 5,
       server_sub_name := "B", gametype := .Survival, nintendo_limited := false,
       ipv4_port := some 7, ipv6_port := some 8 } : BedrockMotd).ipv4_port = some 7 ∧
    ({ edition := .MCPE, server_name := "A", protocol_version := 0,
       version := "v", num_players := 0, max_players := 0, guid := 5,
       server_sub_name := "B", gametype := .Survival, nintendo_limited := false,
       ipv4_port := some 7, ipv6_port := some 8 } : BedrockMotd).ipv6_port = some 8 := by
  have hd : BedrockMotd.decode "MCPE;A;0;v;0;0;0;B;Survival;1;" (some 5) (some 7) (some 8) =
      Except.ok {
        edition := .MCPE, server_name := "A", protocol_version := 0,
        version := "v", num_players := 0, max_players := 0, guid := 5,
        server_sub_name := "B", gametype := .Survival, nintendo_limited := false,
        ipv4_port := some 7, ipv6_port := some 8 } := by decide
  have h3 := c3_overrides "MCPE;A;0;v;0;0;0;B;Survival;1;" (some 5) (some 7) (some 8) _ hd
  exact ⟨hd, h3.1 5 rfl, (h3.2.1 7 8 rfl rfl).1, (h3.2.1 7 8 rfl rfl).2⟩

/-- C5: if the protocol-version, player-count or max-players field of the
split input does not parse as an `i32`, identity decode fails with
`MotdInvalid` (the embedding is total, so no panic and no default value is
possible). -/
theorem c5_numeric_field_rejected (s : String) (g p4 p6 : Option Nat)
    (h : parseI32 (((splitOnChar ';' s.data).map (fun p => String.mk p)).getD 2 "") = none ∨
        parseI32 (((splitOnChar ';' s.data).map (fun p => String.mk p)).getD 4 "") = none ∨
        parseI32 (((splitOnChar ';' s.data).map (fun p => String.mk p)).getD 5 "") = none) :
    BedrockMotd.decode s g p4 p6 = .error .MotdInvalid := by
  unfold BedrockMotd.decode
  apply decodeParts_not_ok
  intro m hm
  rw [decodeParts_ok_iff] at hm
  obtain ⟨-, ed, pv, np, mp, wg, gt, -, h2, h4, h5, -, -, -⟩ := hm
  rcases h with h | h | h
  · rw [h] at h2; exact Option.noConfusion h2
  · rw [h] at h4; exact Option.noConfusion h4
  · rw [h] at h5; exact Option.noConfusion h5

/-- C5 (witness): a non-numeric protocol-version field is rejected. -/
theorem c5_witness :
    BedrockMotd.decode "MCPE;A;x;v;0;0;0;B;Survival;1;" none none none =
      .error .MotdInvalid :=
  c5_numeric_field_rejected "MCPE;A;x;v;0;0;0;B;Survival;1;" none none none
    (Or.inl (by decide))

/-- C9: the wire guid field is validated even when a guid override is
supplied — if field 6 does not parse as a `u64`, decode fails with
`MotdInvalid` instead of returning a record carrying the override
(`unwrap_or` evaluates its argument eagerly, so the `?` inside it fires). -/
theorem c9_guid_always_validated (s : String) (g0 : Nat) (p4 p6 : Option Nat)
    (h : parseU64 (((splitOnChar ';' s.data).map (fun p => String.mk p)).getD 6 "") = none) :
    BedrockMotd.decode s (some g0) p4 p6 = .error .MotdInvalid := by
  unfold BedrockMotd.decode
  apply decodeParts_not_ok
  intro m hm
  rw [decodeParts_ok_iff] at hm
  obtain ⟨-, ed, pv, np, mp, wg, gt, -, -, -, -, h6, -, -⟩ := hm
  rw [h] at h6
  exact Option.noConfusion h6

/-- C9 (witness): a non-numeric guid field is rejected even though a guid
override is supplied. -/
theorem c9_witness :
    BedrockMotd.decode "MCPE;A;0;v;0;0;xyz;B;Survival;1;" (some 7) none none =
      .error .MotdInvalid :=
  c9_guid_always_validated "MCPE;A;0;v;0;0;xyz;B;Survival;1;" 7 none none (by decide)

theorem string_eq_of_data (a b : String) (h : a.data = b.data) : a = b := by
  cases a
  cases b
  exact congrArg String.mk h

theorem string_data_append (a b : String) : (a ++ b).data = a.data ++ b.data := rfl

theorem semi_data : (";" : String).data = [';'] := rfl

theorem empty_data : ("" : String).data = ([] : List Char) := rfl

/-- C4: the source encoder agrees, for every record and every guid
override, with the specification-shaped encoder `encodeSpec` (fixed field
order, guid override winning, inverted platform flag, the three trailing
port shapes, trailing `;`). -/
theorem c4_encode_matches_spec (m : BedrockMotd) (g : Option Nat) :
    m.encode g = m.encodeSpec g := by
  apply string_eq_of_data
  rcases g with _ | g0 <;> rcases hp4 : m.ipv4_port with _ | a <;>
    rcases hp6 : m.ipv6_port with _ | b <;>
      simp [BedrockMotd.encode, BedrockMotd.encodeSpec, hp4, hp6, intercalateChar,
        string_data_append, semi_data, empty_data, List.append_assoc]

/-- C6: edition decode accepts exactly the tags MCPE and MCEE, game-mode
decode exactly Survival and Creative; every other tag fails with
`MotdInvalid` rather than being defaulted. -/
theorem c6_tags_strict :
    BedrockEdition.decode "MCPE" = .ok .MCPE ∧
    BedrockEdition.decode "MCEE" = .ok .MCEE ∧
    (∀ s : String, s ≠ "MCPE" → s ≠ "MCEE" →
      BedrockEdition.decode s = .error .MotdInvalid) ∧
    BedrockGametype.decode "Survival" = .ok .Survival ∧
    BedrockGametype.decode "Creative" = .ok .Creative ∧
    (∀ s : String, s ≠ "Survival" → s ≠ "Creative" →
      BedrockGametype.decode s = .error .MotdInvalid) := by
  refine ⟨rfl, rfl, ?_, rfl, rfl, ?_⟩
  · intro s h1 h2
    simp [BedrockEdition.decode, h1, h2]
  · intro s h1 h2
    simp [BedrockGametype.decode, h1, h2]

/-- C6 (witness): an unrecognized edition tag and an unrecognized game-mode
tag are both rejected. -/
theorem c6_witness :
    BedrockEdition.decode "XBOX" = .error .MotdInvalid ∧
    BedrockGametype.decode "Adventure" = .error .MotdInvalid :=
  ⟨c6_tags_strict.2.2.1 "XBOX" (by decide) (by decide),
   c6_tags_strict.2.2.2.2.2 "Adventure" (by decide) (by decide)⟩

/-- C8: when the record's IPv4 port is absent the encoder emits no port
fields at all, whatever the IPv6 port holds — encoding a record with only
an IPv6 port gives exactly the encoding of the same record with the IPv6
port removed (and the encoder is a total function, so it never fails). -/
theorem c8_ipv6_without_ipv4_dropped (m : BedrockMotd) (g : Option Nat)
    (h : m.ipv4_port = none) :
    m.encode g = BedrockMotd.encode { m with ipv6_port := none } g := by
  cases m
  simp only at h
  subst h
  rfl

/-- C8 (witness): a concrete record with an IPv6 port but no IPv4 port
encodes identically to the record without the IPv6 port. -/
theorem c8_witness :
    BedrockMotd.encode {
        edition := .MCPE, server_name := "A", protocol_version := 0,
        version := "v", num_players := 0, max_players := 0, guid := 0,
        server_sub_name := "B", gametype := .Survival, nintendo_limited := false,
        ipv4_port := none, ipv6_port := some 19133 } none =
      BedrockMotd.encode {
        edition := .MCPE, server_name := "A", protocol_version := 0,
        version := "v", num_players := 0, max_players := 0, guid := 0,
        server_sub_name := "B", gametype := .Survival, nintendo_limited := false,
        ipv4_port := none, ipv6_port := none } none :=
  c8_ipv6_without_ipv4_dropped
    { edition := .MCPE, server_name := "A", protocol_version := 0,
      version := "v", num_players := 0, max_players := 0, guid := 0,
      server_sub_name := "B", gametype := .Survival, nintendo_limited := false,
      ipv4_port := none, ipv6_port := some 19133 } none rfl

theorem getD_set_ne {α : Type} (l : List α) (i j : Nat) (x d : α) (h : i ≠ j) :
    (l.set i x).getD j d = l.getD j d := by
  induction l generalizing i j with
  | nil => rfl
  | cons a l ih =>
    cases i with
    | zero =>
      cases j with
      | zero => exact absurd rfl h
      | succ j => simp [List.set]
    | succ i =>
      cases j with
      | zero => simp [List.set]
      | succ j =>
        simp only [List.set, List.getD_cons_succ]
        exact ih i j (fun e => h (congrArg Nat.succ e))

theorem decodeParts_isOk_iff (buf : List String) (g p4 p6 : Option Nat) :
    (∃ m, BedrockMotd.decodeParts buf g p4 p6 = .ok m) ↔
      ((11 ≤ buf.length ∧ buf.length ≤ 14) ∧
        (∃ ed, BedrockEdition.decode (buf.getD 0 "") = .ok ed) ∧
        (∃ pv, parseI32 (buf.getD 2 "") = some pv) ∧
        (∃ np, parseI32 (buf.getD 4 "") = some np) ∧
        (∃ mp, parseI32 (buf.getD 5 "") = some mp) ∧
        (∃ wg, parseU64 (buf.getD 6 "") = some wg) ∧
        (∃ gt, BedrockGametype.decode (buf.getD 8 "") = .ok gt)) := by
  constructor
  · rintro ⟨m, hm⟩
    rw [decodeParts_ok_iff] at hm
    obtain ⟨hlen, ed, pv, np, mp, wg, gt, h0, h2, h4, h5, h6, h8, -⟩ := hm
    exact ⟨hlen, ⟨ed, h0⟩, ⟨pv, h2⟩, ⟨np, h4⟩, ⟨mp, h5⟩, ⟨wg, h6⟩, ⟨gt, h8⟩⟩
  · rintro ⟨hlen, ⟨ed, h0⟩, ⟨pv, h2⟩, ⟨np, h4⟩, ⟨mp, h5⟩, ⟨wg, h6⟩, ⟨gt, h8⟩⟩
    exact ⟨_, (decodeParts_ok_iff buf g p4 p6 _).mpr
      ⟨hlen, ed, pv, np, mp, wg, gt, h0, h2, h4, h5, h6, h8, rfl⟩⟩

/-- C10: the platform-restriction flag field is never validated — on every
accepted input the record is restricted exactly when field 9 equals "0"
(any other contents, junk included, decode as not-restricted), and
replacing field 9 by an arbitrary string never changes whether decoding
succeeds. -/
theorem c10_flag_unvalidated :
    (∀ (s : String) (g p4 p6 : Option Nat) (r : BedrockMotd),
      BedrockMotd.decode s g p4 p6 = .ok r →
        (r.nintendo_limited = true ↔
          ((splitOnChar ';' s.data).map (fun p => String.mk p)).getD 9 "" = "0")) ∧
    (∀ (parts : List String) (x : String) (g p4 p6 : Option Nat),
      (∃ r, BedrockMotd.decodeParts (parts.set 9 x) g p4 p6 = .ok r) ↔
        (∃ r, BedrockMotd.decodeParts parts g p4 p6 = .ok r)) := by
  constructor
  · intro s g p4 p6 r h
    unfold BedrockMotd.decode at h
    rw [decodeParts_ok_iff] at h
    obtain ⟨-, ed, pv, np, mp, wg, gt, -, -, -, -, -, -, rfl⟩ := h
    rw [applyPortOverrides_nintendo]
    simp [beq_iff_eq]
  · intro parts x g p4 p6
    rw [decodeParts_isOk_iff, decodeParts_isOk_iff, List.length_set,
      getD_set_ne parts 9 0 x "" (by decide), getD_set_ne parts 9 2 x "" (by decide),
      getD_set_ne parts 9 4 x "" (by decide), getD_set_ne parts 9 5 x "" (by decide),
      getD_set_ne parts 9 6 x "" (by decide), getD_set_ne parts 9 8 x "" (by decide)]

/-- C10 (witness): an input with junk in the flag field decodes without an
error, as not-restricted. -/
theorem c10_witness :
    BedrockMotd.decode "MCPE;A;0;v;0;0;0;B;Survival;whatever;" none none none =
      Except.ok {
        edition := .MCPE, server_name := "A", protocol_version := 0,
        version := "v", num_players := 0, max_players := 0, guid := 0,
        server_sub_name := "B", gametype := .Survival, nintendo_limited := false,
        ipv4_port := none, ipv6_port := none } ∧
    (({ edition := .MCPE, server_name := "A", protocol_version := 0,
        version := "v", num_players := 0, max_players := 0, guid := 0,
        server_sub_name := "B", gametype := .Survival, nintendo_limited := false,
        ipv4_port := none, ipv6_port := none } : BedrockMotd).nintendo_limited = true ↔
      ((splitOnChar ';' ("MCPE;A;0;v;0;0;0;B;Survival;whatever;" : String).data).map
        (fun p => String.mk p)).getD 9 "" = "0") := by
  have hd : BedrockMotd.decode "MCPE;A;0;v;0;0;0;B;Survival;whatever;" none none none =
      Except.ok {
        edition := .MCPE, server_name := "A", protocol_version := 0,
        version := "v", num_players := 0, max_players := 0, guid := 0,
        server_sub_name := "B", gametype := .Survival, nintendo_limited := false,
        ipv4_port := none, ipv6_port := none } := by decide
  exact ⟨hd, c10_flag_unvalidated.1 "MCPE;A;0;v;0;0;0;B;Survival;whatever;"
    none none none _ hd⟩

/-- C7: query decode fails with `QueryInvalid` exactly when one of the 8
mandatory keys (hostname, gametype, map, numplayers, maxplayers, hostport,
hostip, version) is absent or its numeric/IP value fails to parse; on
success the player list is attached verbatim and the plugins field is the
optional lookup of the `plugins` key (so absent means empty). -/
theorem c7_query_decode (Ip : Type) (parseIp : String → Option Ip)
    (kv : String → Option String) (players : List String) :
    (ProxyQueryConfig.from_kv_and_players parseIp kv players = .error .QueryInvalid ↔
      ¬((∃ v, kv "hostname" = some v) ∧ (∃ v, kv "gametype" = some v) ∧
        (∃ v, kv "map" = some v) ∧
        (∃ v n, kv "numplayers" = some v ∧ parseU64 v = some n) ∧
        (∃ v n, kv "maxplayers" = some v ∧ parseU64 v = some n) ∧
        (∃ v n, kv "hostport" = some v ∧ parseU16 v = some n) ∧
        (∃ v ip, kv "hostip" = some v ∧ parseIp v = some ip) ∧
        (∃ v, kv "version" = some v))) ∧
    (∀ c, ProxyQueryConfig.from_kv_and_players parseIp kv players = .ok c →
      c.players = players ∧ c.plugins = kv "plugins") := by
  cases h1 : kv "hostname" with
  | none => simp [ProxyQueryConfig.from_kv_and_players, h1]
  | some v1 =>
  cases h2 : kv "gametype" with
  | none => simp [ProxyQueryConfig.from_kv_and_players, h1, h2]
  | some v2 =>
  cases h3 : kv "map" with
  | none => simp [ProxyQueryConfig.from_kv_and_players, h1, h2, h3]
  | some v3 =>
  cases h4 : kv "numplayers" with
  | none => simp [ProxyQueryConfig.from_kv_and_players, h1, h2, h3, h4]
  | some v4 =>
  cases h4p : parseU64 v4 with
  | none => simp [ProxyQueryConfig.from_kv_and_players, h1, h2, h3, h4, h4p]
  | some n4 =>
  cases h5 : kv "maxplayers" with
  | none => simp [ProxyQueryConfig.from_kv_and_players, h1, h2, h3, h4, h4p, h5]
  | some v5 =>
  cases h5p : parseU64 v5 with
  | none => simp [ProxyQueryConfig.from_kv_and_players, h1, h2, h3, h4, h4p, h5, h5p]
  | some n5 =>
  cases h6 : kv "hostport" with
  | none => simp [ProxyQueryConfig.from_kv_and_players, h1, h2, h3, h4, h4p, h5, h5p, h6]
  | some v6 =>
  cases h6p : parseU16 v6 with
  | none =>
    simp [ProxyQueryConfig.from_kv_and_players, h1, h2, h3, h4, h4p, h5, h5p, h6, h6p]
  | some n6 =>
  cases h7 : kv "hostip" with
  | none =>
    simp [ProxyQueryConfig.from_kv_and_players, h1, h2, h3, h4, h4p, h5, h5p, h6, h6p, h7]
  | some v7 =>
  cases h7p : parseIp v7 with
  | none =>
    simp [ProxyQueryConfig.from_kv_and_players, h1, h2, h3, h4, h4p, h5, h5p, h6, h6p,
      h7, h7p]
  | some ip7 =>
  cases h8 : kv "version" with
  | none =>
    simp [ProxyQueryConfig.from_kv_and_players, h1, h2, h3, h4, h4p, h5, h5p, h6, h6p,
      h7, h7p, h8]
  | some v8 =>
    simp [ProxyQueryConfig.from_kv_and_players, h1, h2, h3, h4, h4p, h5, h5p, h6, h6p,
      h7, h7p, h8]

/-- C7 (witness): an empty key-value section is rejected with
`QueryInvalid`. -/
theorem c7_witness :
    @ProxyQueryConfig.from_kv_and_players Nat (fun s => parseU16 s)
        (fun _ => none) [] =
      .error .QueryInvalid :=
  (c7_query_decode Nat (fun s => parseU16 s) (fun _ => none) []).1.mpr (by simp)

end CCProxy
